import Mathlib

/-!
Shallow embedding of the financial computation engine of this repository
(the calculation library working over transactions, accounts and
investments), together with theorems checking the natural-language
specification against it.

Modelling conventions:
* JavaScript `number` values carrying money or rates are modelled as `ℚ`
  (exact arithmetic standing in for IEEE doubles).
* Loop/installment counters are `ℕ`.
* `Date` values are modelled at day granularity as `ℤ` day numbers in a
  proleptic Gregorian calendar; `new Date()` ("today") becomes an explicit
  parameter of the functions that consult the clock.
* Optional fields of the TypeScript interfaces become `Option` fields; a
  JavaScript truthiness test on an optional numeric field is modelled as
  "present and nonzero".
* String-keyed result objects built by indexed assignment are modelled as
  functions into `Option ℚ` (`none` = key absent).
-/

/-! ## Data model (src/types/financial.ts) -/

inductive TransactionType where
  | receita
  | despesa
  | divida
  | credito
  | investimento
  | cartao_credito
  | transferencia
deriving DecidableEq

inductive TransactionStatus where
  | pendente
  | concluida
  | cancelada
deriving DecidableEq

inductive AccountType where
  | conta_corrente
  | poupanca
  | investimento
  | cartao_credito
deriving DecidableEq

inductive InvestmentType where
  | renda_fixa
  | renda_variavel
  | fundos
  | criptomoedas
  | outros
deriving DecidableEq

inductive RecurringFrequency where
  | daily
  | weekly
  | monthly
  | yearly
deriving DecidableEq

structure Transaction where
  id : String
  type : TransactionType
  description : String
  amount : ℚ
  accountId : String
  categoryId : String
  date : ℤ
  scheduledDate : Option ℤ
  status : TransactionStatus
  isRecurring : Bool
  recurringFrequency : Option RecurringFrequency
  recurringEndDate : Option ℤ
  interestRate : Option ℚ
  installments : Option ℕ
  currentInstallment : Option ℕ
  tags : Option (List String)
  notes : Option String
  createdAt : ℤ
  updatedAt : ℤ
deriving DecidableEq

structure Account where
  id : String
  name : String
  type : AccountType
  balance : ℚ
  initialBalance : ℚ
  description : Option String
  isActive : Bool
  createdAt : ℤ
  updatedAt : ℤ
deriving DecidableEq

structure Investment where
  id : String
  name : String
  type : InvestmentType
  amount : ℚ
  currentValue : ℚ
  purchaseDate : ℤ
  interestRate : Option ℚ
  maturityDate : Option ℤ
  accountId : String
  description : Option String
  isActive : Bool
  createdAt : ℤ
  updatedAt : ℤ
deriving DecidableEq

/-- Output aggregate of `generateMonthlyReport`.  The two string-keyed
objects of the source are modelled as functions into `Option ℚ`. -/
structure MonthlyReport where
  month : ℤ
  year : ℤ
  totalIncome : ℚ
  totalExpenses : ℚ
  balance : ℚ
  categoryBreakdown : String → Option ℚ
  accountBalances : String → Option ℚ

/-! ## Calendar model

`generateMonthlyReport` builds `new Date(year, month - 1, 1)` and
`new Date(year, month, 0)`.  The JavaScript `Date` constructor takes a
0-based month index, rolls month overflow into the year, and interprets
day 0 as the day before the first of the month.  We model a `Date` as the
day number of a proleptic Gregorian calendar. -/

def isLeapYear (y : ℤ) : Bool :=
  (Int.emod y 4 == 0 && Int.emod y 100 != 0) || Int.emod y 400 == 0

/-- Length of the 0-based month `m` of year `y`. -/
def daysInMonth (y : ℤ) : ℕ → ℕ
  | 0 => 31
  | 1 => if isLeapYear y then 29 else 28
  | 2 => 31
  | 3 => 30
  | 4 => 31
  | 5 => 30
  | 6 => 31
  | 7 => 31
  | 8 => 30
  | 9 => 31
  | 10 => 30
  | _ => 31

/-- Days of year `y` that precede its 0-based month `m`. -/
def daysBeforeMonth (y : ℤ) : ℕ → ℕ
  | 0 => 0
  | m + 1 => daysBeforeMonth y m + daysInMonth y m

/-- Day count of the years before year `y` (Gregorian leap rule). -/
def dayOfYearsBefore (y : ℤ) : ℤ :=
  365 * y + Int.ediv y 4 - Int.ediv y 100 + Int.ediv y 400

/-- Day number of the first day of 0-based month `m` of year `y`,
normalizing month overflow into the year exactly as the JavaScript `Date`
constructor does. -/
def monthStartDay (y m : ℤ) : ℤ :=
  dayOfYearsBefore (y + Int.ediv m 12) +
    (daysBeforeMonth (y + Int.ediv m 12) (Int.emod m 12).toNat : ℤ)

/-- Day number denoted by `new Date(y, m, d)` (0-based month `m`, with
JavaScript month normalization and day-0/overflow arithmetic). -/
def jsDate (y m d : ℤ) : ℤ :=
  monthStartDay y m + (d - 1)

/-! ## Interest/amortization calculator (`interestCalculations`) -/

namespace interestCalculations

/-- `installmentPayment(principal, rate, periods)` (Price system).  The
source's local `monthlyRate = rate / 100 / 12` is inlined. -/
def installmentPayment (principal rate : ℚ) (periods : ℕ) : ℚ :=
  if rate = 0 then principal / periods
  else
    principal * ((rate / 100 / 12) * (1 + rate / 100 / 12) ^ periods) /
      ((1 + rate / 100 / 12) ^ periods - 1)

/-- The `for` loop of `remainingBalance`: at each step
`interestPayment = balance * monthlyRate`,
`principalPayment = installment - interestPayment`,
`balance -= principalPayment`. -/
def balanceLoop (installment monthlyRate : ℚ) : ℚ → ℕ → ℚ
  | balance, 0 => balance
  | balance, k + 1 =>
      balanceLoop installment monthlyRate
        (balance - (installment - balance * monthlyRate)) k

/-- `remainingBalance(principal, rate, totalPeriods, paidPeriods)`:
zero-rate straight-line reduction, otherwise the amortization walk with
`monthlyRate = rate / 100 / 12` and the installment computed from
`rate * 12`, clamped by `Math.max(0, balance)`. -/
def remainingBalance (principal rate : ℚ) (totalPeriods paidPeriods : ℕ) : ℚ :=
  if rate = 0 then
    principal * ((totalPeriods : ℚ) - (paidPeriods : ℚ)) / (totalPeriods : ℚ)
  else
    max 0
      (balanceLoop (installmentPayment principal (rate * 12) totalPeriods)
        (rate / 100 / 12) principal paidPeriods)

end interestCalculations

/-! ## Transaction aggregator (`transactionCalculations`) -/

namespace transactionCalculations

/-- `getTotalByType(transactions, type)`. -/
def getTotalByType (transactions : List Transaction) (type : TransactionType) : ℚ :=
  (transactions.filter (fun t =>
      decide (t.type = type) && decide (t.status = TransactionStatus.concluida))).foldl
    (fun s t => s + t.amount) 0

/-- `getTotalIncome(transactions)`. -/
def getTotalIncome (transactions : List Transaction) : ℚ :=
  (transactions.filter (fun t =>
      decide (t.type = TransactionType.receita) &&
      decide (t.status = TransactionStatus.concluida))).foldl
    (fun s t => s + t.amount) 0

/-- `getTotalExpenses(transactions)`: `['despesa', 'cartao_credito'].includes(t.type)`
together with completed status. -/
def getTotalExpenses (transactions : List Transaction) : ℚ :=
  (transactions.filter (fun t =>
      decide (t.type ∈ [TransactionType.despesa, TransactionType.cartao_credito]) &&
      decide (t.status = TransactionStatus.concluida))).foldl
    (fun s t => s + t.amount) 0

/-- `getTotalDebts(transactions)`.  The JavaScript truthiness test
`t.installments && t.currentInstallment && t.interestRate` on the three
optional numeric fields is modelled as "each present and nonzero". -/
def getTotalDebts (transactions : List Transaction) : ℚ :=
  (transactions.filter (fun t =>
      decide (t.type = TransactionType.divida) &&
      !decide (t.status = TransactionStatus.cancelada))).foldl
    (fun s t =>
      match t.installments, t.currentInstallment, t.interestRate with
      | some n, some c, some r =>
          if n ≠ 0 ∧ c ≠ 0 ∧ r ≠ 0 then
            s + interestCalculations.remainingBalance t.amount r n (c - 1)
          else s + t.amount
      | _, _, _ => s + t.amount) 0

/-- `getNetBalance(transactions)`. -/
def getNetBalance (transactions : List Transaction) : ℚ :=
  getTotalIncome transactions - getTotalExpenses transactions

/-- `getTransactionsByPeriod(transactions, startDate, endDate)`:
inclusive bounds on `date`. -/
def getTransactionsByPeriod (transactions : List Transaction)
    (startDate endDate : ℤ) : List Transaction :=
  transactions.filter (fun t =>
    decide (startDate ≤ t.date) && decide (t.date ≤ endDate))

/-- `getFutureTransactions(transactions, days)`.  `today` stands for the
`new Date()` call; the source's default `days = 30` is passed explicitly
by callers.  `scheduledDate || date` becomes `Option.getD`. -/
def getFutureTransactions (today : ℤ) (transactions : List Transaction)
    (days : ℤ) : List Transaction :=
  transactions.filter (fun t =>
    decide (t.status = TransactionStatus.pendente) &&
    (decide (today ≤ t.scheduledDate.getD t.date) &&
     decide (t.scheduledDate.getD t.date ≤ today + days)))

/-- `getOverdueTransactions(transactions)` with `today` standing for the
`new Date()` call. -/
def getOverdueTransactions (today : ℤ) (transactions : List Transaction) :
    List Transaction :=
  transactions.filter (fun t =>
    decide (t.status = TransactionStatus.pendente) &&
    decide (t.scheduledDate.getD t.date < today))

end transactionCalculations

/-! ## Account reconciler (`accountCalculations`) -/

namespace accountCalculations

/-- `getTotalBalance(accounts)`: sum of `balance` over active accounts. -/
def getTotalBalance (accounts : List Account) : ℚ :=
  (accounts.filter (fun a => a.isActive)).foldl (fun s a => s + a.balance) 0

/-- `updateAccountBalance(account, transactions)`: rebuild the balance from
`initialBalance` and the completed transactions of this account. -/
def updateAccountBalance (account : Account) (transactions : List Transaction) : ℚ :=
  (transactions.filter (fun t =>
      decide (t.accountId = account.id) &&
      decide (t.status = TransactionStatus.concluida))).foldl
    (fun balance t =>
      if t.type ∈ [TransactionType.receita, TransactionType.credito] then
        balance + t.amount
      else if t.type ∈ [TransactionType.despesa, TransactionType.divida,
          TransactionType.cartao_credito, TransactionType.investimento] then
        balance - t.amount
      else balance)
    account.initialBalance

end accountCalculations

/-! ## Maps built by indexed assignment

Both `getInvestmentAllocation` and the category breakdown of
`generateMonthlyReport` build an object by
`if (!map[k]) map[k] = 0; map[k] += v`; `accum` is that loop, `setKey` is
the plain `map[k] = v` assignment used for account balances. -/

def setKey {K : Type} [DecidableEq K] (mp : K → Option ℚ) (k : K) (v : ℚ) :
    K → Option ℚ :=
  fun k2 => if k2 = k then some v else mp k2

def bump {K : Type} [DecidableEq K] (mp : K → Option ℚ) (k : K) (v : ℚ) :
    K → Option ℚ :=
  fun k2 => if k2 = k then some ((mp k).getD 0 + v) else mp k2

def accum {α K : Type} [DecidableEq K] (key : α → K) (contrib : α → ℚ) :
    List α → (K → Option ℚ) → (K → Option ℚ)
  | [], mp => mp
  | a :: l, mp => accum key contrib l (bump mp (key a) (contrib a))

/-! ## Investment evaluator (`investmentCalculations`) -/

namespace investmentCalculations

/-- `getTotalInvestments(investments)`. -/
def getTotalInvestments (investments : List Investment) : ℚ :=
  (investments.filter (fun i => i.isActive)).foldl
    (fun s i => s + i.currentValue) 0

/-- `getInvestmentAllocation(investments)`: starts from the empty object,
returns it unchanged when the active total is zero, otherwise accumulates
`(currentValue / total) * 100` per active investment keyed by type. -/
def getInvestmentAllocation (investments : List Investment) :
    InvestmentType → Option ℚ :=
  if getTotalInvestments investments = 0 then fun _ => none
  else
    accum (fun i => i.type)
      (fun i => i.currentValue / getTotalInvestments investments * 100)
      (investments.filter (fun i => i.isActive)) (fun _ => none)

end investmentCalculations

/-! ## Monthly report builder (`generateMonthlyReport`) -/

def generateMonthlyReport (transactions : List Transaction)
    (accounts : List Account) (month year : ℤ) : MonthlyReport :=
  let startDate := jsDate year (month - 1) 1
  let endDate := jsDate year month 0
  let monthlyTransactions :=
    transactionCalculations.getTransactionsByPeriod transactions startDate endDate
  let totalIncome := transactionCalculations.getTotalIncome monthlyTransactions
  let totalExpenses := transactionCalculations.getTotalExpenses monthlyTransactions
  { month := month
    year := year
    totalIncome := totalIncome
    totalExpenses := totalExpenses
    balance := totalIncome - totalExpenses
    categoryBreakdown :=
      accum (fun t => t.categoryId) (fun t => t.amount) monthlyTransactions
        (fun _ => none)
    accountBalances :=
      accounts.foldl (fun mp a => setKey mp a.id a.balance) (fun _ => none) }

/-! ## Spec-side definitions

These follow the wording of the specification (for the refinement claims);
each is compared against the corresponding source-translated function. -/

/-- Following the spec's words: the per-debt contribution to `totalDebts` —
for installment debts (`installments`, `currentInstallment`, `interestRate`
all present and nonzero) the outstanding balance
`remainingBalance(amount, interestRate, installments, currentInstallment - 1)`,
otherwise the original `amount`. -/
def debtContributionSpec (t : Transaction) : ℚ :=
  match t.installments, t.currentInstallment, t.interestRate with
  | some n, some c, some r =>
      if n ≠ 0 ∧ c ≠ 0 ∧ r ≠ 0 then
        interestCalculations.remainingBalance t.amount r n (c - 1)
      else t.amount
  | _, _, _ => t.amount

/-- Following the spec's words: `totalDebts` sums the contributions over
transactions with `type == debt` and `status != canceled`. -/
def totalDebtsSpec (transactions : List Transaction) : ℚ :=
  ((transactions.filter (fun t =>
      decide (t.type = TransactionType.divida) &&
      !decide (t.status = TransactionStatus.cancelada))).map
    debtContributionSpec).sum

/-- Following the spec's words: the signed effect of one completed
transaction on an account balance — added for `income`/`credit`, subtracted
for `expense`/`debt`/`card-charge`/`investment`, and `transfer` is not
folded in. -/
def signedAmountSpec (t : Transaction) : ℚ :=
  match t.type with
  | TransactionType.receita => t.amount
  | TransactionType.credito => t.amount
  | TransactionType.despesa => -t.amount
  | TransactionType.divida => -t.amount
  | TransactionType.cartao_credito => -t.amount
  | TransactionType.investimento => -t.amount
  | TransactionType.transferencia => 0

/-- Following the spec's words: `updateAccountBalance` starts from
`initialBalance` and adds the signed amounts of the completed transactions
of this account. -/
def updateAccountBalanceSpec (account : Account) (transactions : List Transaction) : ℚ :=
  account.initialBalance +
    ((transactions.filter (fun t =>
        decide (t.accountId = account.id) &&
        decide (t.status = TransactionStatus.concluida))).map
      signedAmountSpec).sum

/-- Following the spec's words: the first calendar day of 1-based month
`month` of `year`. -/
def specWindowStart (year month : ℤ) : ℤ :=
  dayOfYearsBefore year + (daysBeforeMonth year (month - 1).toNat : ℤ)

/-- Following the spec's words: the day before the first calendar day of
the month after 1-based month `month` of `year`. -/
def specWindowEnd (year month : ℤ) : ℤ :=
  (if month = 12 then specWindowStart (year + 1) 1
   else specWindowStart year (month + 1)) - 1

/-- Following the spec's words: membership of a transaction's `date` in the
report window, with inclusive bounds. -/
def specInWindow (year month : ℤ) (t : Transaction) : Bool :=
  decide (specWindowStart year month ≤ t.date) &&
  decide (t.date ≤ specWindowEnd year month)

/-- Following the spec's words: the category-id entry of the monthly
report — the unconditional sum of `amount` over the in-window transactions
of that category, regardless of type or status; absent when no in-window
transaction has the category. -/
def specCategorySum (transactions : List Transaction) (cid : String) : Option ℚ :=
  if (transactions.filter (fun t => decide (t.categoryId = cid))).isEmpty then none
  else
    some (((transactions.filter (fun t => decide (t.categoryId = cid))).map
      (fun t => t.amount)).sum)

/-- Following the spec's words: the allocation entry of one investment
type — each active investment of that type accumulates
`(currentValue / total) * 100`; absent when no active investment has the
type. -/
def specAllocEntry (investments : List Investment) (ty : InvestmentType) : Option ℚ :=
  if ((investments.filter (fun i => i.isActive)).filter
      (fun i => decide (i.type = ty))).isEmpty then none
  else
    some ((((investments.filter (fun i => i.isActive)).filter
        (fun i => decide (i.type = ty))).map
      (fun i => i.currentValue / investmentCalculations.getTotalInvestments investments * 100)).sum)

/-! ## Sample data for witnesses and counterexamples -/

/-- An installment debt transaction whose three installment fields are all
present but whose `interestRate` is the (falsy) number 0. -/
def c1Tx : Transaction :=
  { id := "t1", type := TransactionType.divida, description := "loan"
    amount := 100, accountId := "a1", categoryId := "c1", date := 0
    scheduledDate := none, status := TransactionStatus.pendente
    isRecurring := false, recurringFrequency := none, recurringEndDate := none
    interestRate := some 0, installments := some 2, currentInstallment := some 2
    tags := none, notes := none, createdAt := 0, updatedAt := 0 }

def c3Account : Account :=
  { id := "acc1", name := "main", type := AccountType.conta_corrente
    balance := 1000, initialBalance := 1000, description := none
    isActive := true, createdAt := 0, updatedAt := 0 }

def c3Income : Transaction :=
  { id := "t2", type := TransactionType.receita, description := "salary"
    amount := 500, accountId := "acc1", categoryId := "c1", date := 0
    scheduledDate := none, status := TransactionStatus.concluida
    isRecurring := false, recurringFrequency := none, recurringEndDate := none
    interestRate := none, installments := none, currentInstallment := none
    tags := none, notes := none, createdAt := 0, updatedAt := 0 }

def c3Expense : Transaction :=
  { id := "t3", type := TransactionType.despesa, description := "food"
    amount := 200, accountId := "acc1", categoryId := "c2", date := 0
    scheduledDate := none, status := TransactionStatus.concluida
    isRecurring := false, recurringFrequency := none, recurringEndDate := none
    interestRate := none, installments := none, currentInstallment := none
    tags := none, notes := none, createdAt := 0, updatedAt := 0 }

def c6Tx : Transaction :=
  { id := "t4", type := TransactionType.despesa, description := "void"
    amount := 77, accountId := "a1", categoryId := "c1", date := 0
    scheduledDate := none, status := TransactionStatus.cancelada
    isRecurring := false, recurringFrequency := none, recurringEndDate := none
    interestRate := none, installments := none, currentInstallment := none
    tags := none, notes := none, createdAt := 0, updatedAt := 0 }

def c7a : Account :=
  { id := "a1", name := "first", type := AccountType.conta_corrente
    balance := 10, initialBalance := 10, description := none
    isActive := true, createdAt := 0, updatedAt := 0 }

def c7b : Account :=
  { id := "a2", name := "second", type := AccountType.poupanca
    balance := 20, initialBalance := 20, description := none
    isActive := false, createdAt := 0, updatedAt := 0 }

def c8Inv : Investment :=
  { id := "i1", name := "cdb", type := InvestmentType.renda_fixa
    amount := 150, currentValue := 200, purchaseDate := 0
    interestRate := none, maturityDate := none, accountId := "a1"
    description := none, isActive := true, createdAt := 0, updatedAt := 0 }

def c10Tx : Transaction :=
  { id := "t5", type := TransactionType.divida, description := "loan"
    amount := 100, accountId := "a1", categoryId := "c1", date := 0
    scheduledDate := none, status := TransactionStatus.pendente
    isRecurring := false, recurringFrequency := none, recurringEndDate := none
    interestRate := some 0, installments := some 2, currentInstallment := some 2
    tags := none, notes := none, createdAt := 0, updatedAt := 0 }

/-- A pending transaction scheduled 5 days ahead of day 0. -/
def c5Fut : Transaction :=
  { id := "t6", type := TransactionType.despesa, description := "bill"
    amount := 50, accountId := "a1", categoryId := "c1", date := 0
    scheduledDate := some 5, status := TransactionStatus.pendente
    isRecurring := false, recurringFrequency := none, recurringEndDate := none
    interestRate := none, installments := none, currentInstallment := none
    tags := none, notes := none, createdAt := 0, updatedAt := 0 }

/-- A pending transaction scheduled 5 days before day 0. -/
def c5Past : Transaction :=
  { id := "t7", type := TransactionType.despesa, description := "bill"
    amount := 50, accountId := "a1", categoryId := "c1", date := 0
    scheduledDate := some (-5), status := TransactionStatus.pendente
    isRecurring := false, recurringFrequency := none, recurringEndDate := none
    interestRate := none, installments := none, currentInstallment := none
    tags := none, notes := none, createdAt := 0, updatedAt := 0 }

def c4Tx : Transaction :=
  { id := "t8", type := TransactionType.receita, description := "pay"
    amount := 500, accountId := "a1", categoryId := "cat1"
    date := specWindowStart 2024 1
    scheduledDate := none, status := TransactionStatus.concluida
    isRecurring := false, recurringFrequency := none, recurringEndDate := none
    interestRate := none, installments := none, currentInstallment := none
    tags := none, notes := none, createdAt := 0, updatedAt := 0 }

def c4Acc : Account :=
  { id := "a1", name := "main", type := AccountType.conta_corrente
    balance := 1500, initialBalance := 1000, description := none
    isActive := true, createdAt := 0, updatedAt := 0 }

/-! ## Helper lemmas -/

/-- A left fold that only ever adds a per-element quantity is the initial
value plus the sum of those quantities. -/
lemma foldl_step_eq_sum {α : Type} (step : ℚ → α → ℚ) (g : α → ℚ)
    (hstep : ∀ s a, step s a = s + g a) :
    ∀ (l : List α) (init : ℚ), l.foldl step init = init + (l.map g).sum := by
  intro l
  induction l with
  | nil => intro init; simp
  | cons a l ih =>
      intro init
      rw [List.foldl_cons, hstep, ih, List.map_cons, List.sum_cons]
      ring

/-- Closed form of the amortization walk. -/
lemma balanceLoop_closed (P m : ℚ) (b : ℚ) (n : ℕ) :
    interestCalculations.balanceLoop P m b n =
      b * (1 + m) ^ n - P * (Finset.range n).sum (fun k => (1 + m) ^ k) := by
  induction n generalizing b with
  | zero => simp [interestCalculations.balanceLoop]
  | succ n ih =>
      rw [show interestCalculations.balanceLoop P m b (n + 1) =
            interestCalculations.balanceLoop P m (b - (P - b * m)) n from rfl,
        ih, Finset.sum_range_succ]
      ring

/-- Term-wise comparison of the two mixed geometric sums used to bound the
amortization walk. -/
lemma pow_mul_geom_le (u v : ℚ) (hv : 0 ≤ v) (huv : v ≤ u) (n : ℕ) :
    v ^ n * (Finset.range n).sum (fun k => u ^ k) ≤
      u ^ n * (Finset.range n).sum (fun k => v ^ k) := by
  rw [Finset.mul_sum, Finset.mul_sum]
  apply Finset.sum_le_sum
  intro k hk
  have hk' : k ≤ n := le_of_lt (Finset.mem_range.mp hk)
  have hu : 0 ≤ u := le_trans hv huv
  have hvn : v ^ n = v ^ k * v ^ (n - k) := by
    rw [← pow_add, Nat.add_sub_cancel' hk']
  have hun : u ^ n = u ^ k * u ^ (n - k) := by
    rw [← pow_add, Nat.add_sub_cancel' hk']
  rw [hvn, hun]
  have h1 : v ^ (n - k) ≤ u ^ (n - k) := pow_le_pow_left₀ hv huv _
  calc v ^ k * v ^ (n - k) * u ^ k
      = (v ^ k * u ^ k) * v ^ (n - k) := by ring
    _ ≤ (v ^ k * u ^ k) * u ^ (n - k) :=
        mul_le_mul_of_nonneg_left h1
          (mul_nonneg (pow_nonneg hv k) (pow_nonneg hu k))
    _ = u ^ k * u ^ (n - k) * v ^ k := by ring

/-- Reading one key out of the accumulation loop: absent keys stay as in
the initial map, hit keys hold the initial value plus the summed
contributions. -/
lemma accum_apply {α K : Type} [DecidableEq K] (key : α → K) (contrib : α → ℚ)
    (l : List α) (mp : K → Option ℚ) (k : K) :
    accum key contrib l mp k =
      if (l.filter (fun a => decide (key a = k))).isEmpty then mp k
      else some ((mp k).getD 0 +
        ((l.filter (fun a => decide (key a = k))).map contrib).sum) := by
  induction l generalizing mp with
  | nil => simp [accum]
  | cons a l ih =>
      rw [show accum key contrib (a :: l) mp =
            accum key contrib l (bump mp (key a) (contrib a)) from rfl, ih]
      by_cases hk : key a = k
      · subst hk
        by_cases he : (l.filter (fun a2 => decide (key a2 = key a))).isEmpty
        · have he2 : (l.filter (fun a2 => decide (key a2 = key a))) = [] := by
            simpa using he
          simp [List.filter_cons, he2, bump]
        · simp [List.filter_cons, he, bump, add_assoc]
      · have hk2 : ¬(k = key a) := fun h => hk h.symm
        have hb : bump mp (key a) (contrib a) k = mp k := by
          simp [bump, if_neg hk2]
        simp [List.filter_cons, hk, hb]

/-- Keys not named by any element of the list are untouched by the
account-balance fold. -/
lemma foldl_setKey_not_mem (l : List Account) (mp : String → Option ℚ)
    (k : String) (hk : ∀ x ∈ l, x.id ≠ k) :
    l.foldl (fun mp2 a => setKey mp2 a.id a.balance) mp k = mp k := by
  induction l generalizing mp with
  | nil => simp
  | cons b l ih =>
      rw [List.foldl_cons, ih]
      · have hb : ¬(k = b.id) := fun h => hk b (List.mem_cons_self b l) h.symm
        simp [setKey, if_neg hb]
      · intro x hx
        exact hk x (List.mem_cons_of_mem b hx)

/-- With pairwise distinct ids, the account-balance fold maps each
account's id to its cached `balance`. -/
lemma foldl_setKey_apply (accounts : List Account) (mp : String → Option ℚ)
    (a : Account) (ha : a ∈ accounts)
    (hnd : (accounts.map (fun x => x.id)).Nodup) :
    accounts.foldl (fun mp2 x => setKey mp2 x.id x.balance) mp a.id =
      some a.balance := by
  induction accounts generalizing mp with
  | nil => cases ha
  | cons b l ih =>
      rw [List.map_cons, List.nodup_cons] at hnd
      rcases List.mem_cons.mp ha with h | h
      · subst h
        rw [List.foldl_cons,
          foldl_setKey_not_mem l _ a.id
            (fun x hx h2 => hnd.1 (h2 ▸ List.mem_map_of_mem (fun y => y.id) hx))]
        simp [setKey]
      · rw [List.foldl_cons]
        exact ih _ h hnd.2

/-! ## Claim theorems -/

/-- C1 (amended): `getTotalDebts` sums over transactions with debt type and
non-canceled status; a debt contributes the remaining balance
`remainingBalance(amount, interestRate, installments, currentInstallment - 1)`
exactly when `installments`, `currentInstallment` and `interestRate` are all
present *and nonzero* (JavaScript truthiness), and its original `amount`
otherwise. -/
theorem getTotalDebts_eq_spec (transactions : List Transaction) :
    transactionCalculations.getTotalDebts transactions =
      totalDebtsSpec transactions := by
  unfold transactionCalculations.getTotalDebts totalDebtsSpec
  rw [foldl_step_eq_sum _ debtContributionSpec ?hstep, zero_add]
  case hstep =>
    intro s t
    unfold debtContributionSpec
    cases h1 : t.installments <;> cases h2 : t.currentInstallment <;>
      cases h3 : t.interestRate <;> simp [h1, h2, h3]
    split <;> rfl

/-- C1 counterexample: a debt whose `installments`, `currentInstallment`
and `interestRate` fields are all *present* but whose rate is 0 contributes
its full amount (100), not the remaining balance (50) the claim as stated
would require. -/
theorem getTotalDebts_present_fields_cex :
    transactionCalculations.getTotalDebts [c1Tx] = 100 ∧
    interestCalculations.remainingBalance 100 0 2 1 = 50 ∧
    transactionCalculations.getTotalDebts [c1Tx] ≠
      interestCalculations.remainingBalance 100 0 2 1 := by
  have h1 : transactionCalculations.getTotalDebts [c1Tx] = 100 := by
    unfold transactionCalculations.getTotalDebts
    norm_num [c1Tx, List.filter_cons, List.foldl_cons,
      (show TransactionStatus.pendente ≠ TransactionStatus.cancelada by decide)]
  have h2 : interestCalculations.remainingBalance 100 0 2 1 = 50 := by
    norm_num [interestCalculations.remainingBalance]
  refine ⟨h1, h2, ?_⟩
  rw [h1, h2]
  norm_num

/-- Bridge from the reconciliation fold to the spec-side signed sum. -/
lemma updateAccountBalance_eq (account : Account) (transactions : List Transaction) :
    accountCalculations.updateAccountBalance account transactions =
      updateAccountBalanceSpec account transactions := by
  unfold accountCalculations.updateAccountBalance updateAccountBalanceSpec
  rw [foldl_step_eq_sum _ signedAmountSpec ?hstep]
  case hstep =>
    intro s t
    unfold signedAmountSpec
    cases t.type <;> simp [sub_eq_add_neg]

/-- C3: `updateAccountBalance` returns `initialBalance` plus the signed
amounts of the matching completed transactions (income/credit added,
expense/debt/card-charge/investment subtracted, transfer not folded in,
inputs unmutated), and on the concrete scenario (initial 1000, completed
income 500, completed expense 200) returns 1300. -/
theorem updateAccountBalance_spec_and_scenario :
    (∀ (account : Account) (transactions : List Transaction),
      accountCalculations.updateAccountBalance account transactions =
        updateAccountBalanceSpec account transactions) ∧
    accountCalculations.updateAccountBalance c3Account [c3Income, c3Expense] = 1300 := by
  refine ⟨updateAccountBalance_eq, ?_⟩
  norm_num [accountCalculations.updateAccountBalance, c3Account, c3Income, c3Expense,
    List.filter_cons, List.foldl_cons]
  decide

/-- C6: appending a canceled transaction leaves every aggregate of
`transactionCalculations` unchanged. -/
theorem canceled_never_contributes (transactions : List Transaction)
    (t : Transaction) (h : t.status = TransactionStatus.cancelada) :
    (∀ ty, transactionCalculations.getTotalByType (transactions ++ [t]) ty =
      transactionCalculations.getTotalByType transactions ty) ∧
    transactionCalculations.getTotalIncome (transactions ++ [t]) =
      transactionCalculations.getTotalIncome transactions ∧
    transactionCalculations.getTotalExpenses (transactions ++ [t]) =
      transactionCalculations.getTotalExpenses transactions ∧
    transactionCalculations.getTotalDebts (transactions ++ [t]) =
      transactionCalculations.getTotalDebts transactions ∧
    transactionCalculations.getNetBalance (transactions ++ [t]) =
      transactionCalculations.getNetBalance transactions := by
  have hincome : transactionCalculations.getTotalIncome (transactions ++ [t]) =
      transactionCalculations.getTotalIncome transactions := by
    unfold transactionCalculations.getTotalIncome
    rw [List.filter_append]
    simp [h]
  have hexp : transactionCalculations.getTotalExpenses (transactions ++ [t]) =
      transactionCalculations.getTotalExpenses transactions := by
    unfold transactionCalculations.getTotalExpenses
    rw [List.filter_append]
    simp [h]
  refine ⟨?_, hincome, hexp, ?_, ?_⟩
  · intro ty
    unfold transactionCalculations.getTotalByType
    rw [List.filter_append]
    simp [h]
  · unfold transactionCalculations.getTotalDebts
    rw [List.filter_append]
    simp [h]
  · unfold transactionCalculations.getNetBalance
    rw [hincome, hexp]

/-- C6 witness at a concrete canceled transaction. -/
theorem canceled_never_contributes_witness :
    transactionCalculations.getTotalIncome ([] ++ [c6Tx]) =
      transactionCalculations.getTotalIncome [] ∧
    transactionCalculations.getTotalDebts ([] ++ [c6Tx]) =
      transactionCalculations.getTotalDebts [] := by
  have h := canceled_never_contributes [] c6Tx rfl
  exact ⟨h.2.1, h.2.2.2.1⟩

/-- C7: `getTotalBalance` (the sum of `balance` over active accounts) is
invariant under permutation of the accounts collection. -/
theorem getTotalBalance_perm_invariant (l1 l2 : List Account) (h : l1.Perm l2) :
    accountCalculations.getTotalBalance l1 =
      accountCalculations.getTotalBalance l2 := by
  have key : ∀ l : List Account, accountCalculations.getTotalBalance l =
      ((l.filter (fun a => a.isActive)).map (fun a => a.balance)).sum := by
    intro l
    unfold accountCalculations.getTotalBalance
    rw [foldl_step_eq_sum _ (fun a => a.balance) ?hstep, zero_add]
    case hstep => intro s a; rfl
  rw [key, key]
  exact ((h.filter _).map _).sum_eq

/-- C7 witness: a concrete two-element swap. -/
theorem getTotalBalance_perm_invariant_witness :
    [c7a, c7b].Perm [c7b, c7a] ∧
    accountCalculations.getTotalBalance [c7a, c7b] =
      accountCalculations.getTotalBalance [c7b, c7a] :=
  ⟨List.Perm.swap c7b c7a [],
   getTotalBalance_perm_invariant [c7a, c7b] [c7b, c7a] (List.Perm.swap c7b c7a [])⟩

/-- C8: `getInvestmentAllocation` returns the empty mapping when the active
total is zero (in particular on the empty collection, with no division),
and otherwise each investment type held by an active investment maps to the
accumulated `(currentValue / total) * 100` shares. -/
theorem getInvestmentAllocation_spec :
    investmentCalculations.getInvestmentAllocation [] = (fun _ => none) ∧
    (∀ investments, investmentCalculations.getTotalInvestments investments = 0 →
      investmentCalculations.getInvestmentAllocation investments = fun _ => none) ∧
    (∀ investments ty, investmentCalculations.getTotalInvestments investments ≠ 0 →
      investmentCalculations.getInvestmentAllocation investments ty =
        specAllocEntry investments ty) := by
  have hzero : ∀ investments : List Investment,
      investmentCalculations.getTotalInvestments investments = 0 →
      investmentCalculations.getInvestmentAllocation investments = fun _ => none := by
    intro investments h
    unfold investmentCalculations.getInvestmentAllocation
    rw [if_pos h]
  refine ⟨?_, hzero, ?_⟩
  · apply hzero
    unfold investmentCalculations.getTotalInvestments
    simp
  · intro investments ty h
    unfold investmentCalculations.getInvestmentAllocation specAllocEntry
    rw [if_neg h, accum_apply]
    simp

/-- C8 witness: one active investment, nonzero total. -/
theorem getInvestmentAllocation_spec_witness :
    investmentCalculations.getTotalInvestments [c8Inv] ≠ 0 ∧
    investmentCalculations.getInvestmentAllocation [c8Inv] InvestmentType.renda_fixa =
      specAllocEntry [c8Inv] InvestmentType.renda_fixa := by
  have h : investmentCalculations.getTotalInvestments [c8Inv] ≠ 0 := by
    norm_num [investmentCalculations.getTotalInvestments, c8Inv]
  exact ⟨h, getInvestmentAllocation_spec.2.2 [c8Inv] InvestmentType.renda_fixa h⟩

/-- C9: at a zero rate the installment payment is the straight division of
the principal by the number of periods. -/
theorem installmentPayment_zero_rate (principal : ℚ) (periods : ℕ)
    (_hp : 0 < principal) (_hn : 1 ≤ periods) :
    interestCalculations.installmentPayment principal 0 periods =
      principal / periods := by
  unfold interestCalculations.installmentPayment
  rw [if_pos rfl]

/-- C9 witness. -/
theorem installmentPayment_zero_rate_witness :
    (0:ℚ) < 100 ∧ 1 ≤ 4 ∧
    interestCalculations.installmentPayment 100 0 4 = 100 / 4 :=
  ⟨by norm_num, by norm_num,
   installmentPayment_zero_rate 100 4 (by norm_num) (by norm_num)⟩

/-- C10: a debt transaction with `installments` and `currentInstallment`
present but `interestRate` equal to 0 contributes its full original amount
to `getTotalDebts` (the truthiness guard skips the remaining-balance
substitution), even though a zero rate would give a straight-line remaining
balance strictly smaller than the amount once `currentInstallment > 1`. -/
theorem getTotalDebts_zero_rate_full_amount (transactions : List Transaction)
    (t : Transaction) (n c : ℕ) (ht : t.type = TransactionType.divida)
    (hs : t.status ≠ TransactionStatus.cancelada)
    (hn : t.installments = some n) (hc : t.currentInstallment = some c)
    (hr : t.interestRate = some 0) :
    transactionCalculations.getTotalDebts (transactions ++ [t]) =
      transactionCalculations.getTotalDebts transactions + t.amount ∧
    ∀ amount : ℚ, ∀ n2 c2 : ℕ, 0 < amount → 1 < c2 → c2 ≤ n2 →
      interestCalculations.remainingBalance amount 0 n2 (c2 - 1) < amount := by
  constructor
  · unfold transactionCalculations.getTotalDebts
    rw [List.filter_append]
    have hkeep : List.filter (fun t2 =>
        decide (t2.type = TransactionType.divida) &&
        !decide (t2.status = TransactionStatus.cancelada)) [t] = [t] := by
      simp [ht, hs]
    rw [hkeep, List.foldl_append]
    simp [hn, hc, hr]
  · intro amount n2 c2 hamt hc2 hn2
    unfold interestCalculations.remainingBalance
    rw [if_pos rfl]
    have hn2pos : (0:ℚ) < (n2:ℚ) := by exact_mod_cast (by omega : 0 < n2)
    have hcast : ((c2 - 1 : ℕ) : ℚ) = (c2:ℚ) - 1 := by
      rw [Nat.cast_sub (by omega : 1 ≤ c2), Nat.cast_one]
    rw [hcast, div_lt_iff₀ hn2pos]
    have hlt : (n2:ℚ) - ((c2:ℚ) - 1) < (n2:ℚ) := by
      have : (1:ℚ) < (c2:ℚ) := by exact_mod_cast hc2
      linarith
    exact mul_lt_mul_of_pos_left hlt hamt

/-- C10 witness at a concrete zero-rate installment debt. -/
theorem getTotalDebts_zero_rate_full_amount_witness :
    transactionCalculations.getTotalDebts ([] ++ [c10Tx]) =
      transactionCalculations.getTotalDebts [] + c10Tx.amount ∧
    interestCalculations.remainingBalance 100 0 2 1 < 100 := by
  have h := getTotalDebts_zero_rate_full_amount [] c10Tx 2 2 rfl
    (by simp [c10Tx]) rfl rfl rfl
  exact ⟨h.1, h.2 100 2 2 (by norm_num) (by norm_num) (by norm_num)⟩

/-- The amortization walk ends at or below zero when the installment is
computed at a periodic rate `R` at least as large as the walk's own rate
`m` (inside `remainingBalance` the source feeds `rate * 12` into
`installmentPayment`, so `R = 12 * m` there). -/
lemma amortization_loop_nonpos (p m R : ℚ) (hp : 0 ≤ p) (hm : 0 < m)
    (hmR : m ≤ R) (n : ℕ) (hn : 1 ≤ n) :
    interestCalculations.balanceLoop
      (p * (R * (1 + R) ^ n) / ((1 + R) ^ n - 1)) m p n ≤ 0 := by
  have hR : 0 < R := lt_of_lt_of_le hm hmR
  have hv : (0:ℚ) ≤ 1 + m := by linarith
  have huv : (1:ℚ) + m ≤ 1 + R := by linarith
  have hSupos : 0 < (Finset.range n).sum (fun k => (1 + R) ^ k) :=
    Finset.sum_pos (fun k _ => pow_pos (by linarith) k)
      (Finset.nonempty_range_iff.mpr (by omega))
  have hgeom : (1 + R) ^ n - 1 = R * (Finset.range n).sum (fun k => (1 + R) ^ k) := by
    have h := geom_sum_mul (1 + R) n
    rw [show (1:ℚ) + R - 1 = R from by ring] at h
    linarith
  rw [balanceLoop_closed, sub_nonpos, hgeom, div_mul_eq_mul_div,
    le_div_iff₀ (mul_pos hR hSupos)]
  have key := pow_mul_geom_le (1 + R) (1 + m) hv huv n
  have h2 := mul_le_mul_of_nonneg_left key (mul_nonneg hp hR.le)
  linarith [h2]

/-- C2: for `p ≥ 0`, `r ≥ 0`, `n ≥ 1`, a fully paid loan has zero
remaining balance (`remainingBalance p r n n = 0`) and an unpaid loan
retains its full principal (`remainingBalance p r n 0 = p`). -/
theorem remainingBalance_endpoints (p r : ℚ) (n : ℕ)
    (hp : 0 ≤ p) (hr : 0 ≤ r) (hn : 1 ≤ n) :
    interestCalculations.remainingBalance p r n n = 0 ∧
    interestCalculations.remainingBalance p r n 0 = p := by
  have hnQ : ((n : ℚ)) ≠ 0 := Nat.cast_ne_zero.mpr (by omega)
  constructor
  · by_cases h0 : r = 0
    · subst h0
      unfold interestCalculations.remainingBalance
      rw [if_pos rfl]
      simp
    · have hrpos : 0 < r := lt_of_le_of_ne hr (Ne.symm h0)
      have hr12 : r * 12 ≠ 0 := ne_of_gt (mul_pos hrpos (by norm_num))
      unfold interestCalculations.remainingBalance
        interestCalculations.installmentPayment
      rw [if_neg h0, if_neg hr12]
      apply max_eq_left
      have hm : 0 < r / 100 / 12 := div_pos (div_pos hrpos (by norm_num)) (by norm_num)
      have hmR : r / 100 / 12 ≤ r * 12 / 100 / 12 := by
        have h1 : r / 100 / 12 = r / 1200 := by ring
        have h2 : r * 12 / 100 / 12 = r / 100 := by ring
        rw [h1, h2, div_le_div_iff₀ (by norm_num) (by norm_num)]
        linarith
      exact amortization_loop_nonpos p (r / 100 / 12) (r * 12 / 100 / 12)
        hp hm hmR n hn
  · by_cases h0 : r = 0
    · subst h0
      unfold interestCalculations.remainingBalance
      rw [if_pos rfl, Nat.cast_zero, sub_zero, mul_div_assoc, div_self hnQ, mul_one]
    · unfold interestCalculations.remainingBalance
      rw [if_neg h0]
      exact max_eq_right hp

/-- C2 witness at `p = 100`, `r = 12`, `n = 1`. -/
theorem remainingBalance_endpoints_witness :
    (0:ℚ) ≤ 100 ∧ (0:ℚ) ≤ 12 ∧ 1 ≤ 1 ∧
    interestCalculations.remainingBalance 100 12 1 1 = 0 ∧
    interestCalculations.remainingBalance 100 12 1 0 = 100 := by
  have h := remainingBalance_endpoints 100 12 1 (by norm_num) (by norm_num) (le_refl 1)
  exact ⟨by norm_num, by norm_num, le_refl 1, h.1, h.2⟩

/-- C5: the effective date prefers `scheduledDate` over `date`; a pending
transaction is "future" exactly when its effective date lies in
`[today, today + horizon]` inclusive, and "overdue" exactly when it lies
strictly before `today`; in particular a pending transaction scheduled 5
days ahead is future (horizon 30) and not overdue, and one scheduled 5
days back is overdue and not future. -/
theorem future_overdue_membership (today : ℤ) (transactions : List Transaction)
    (t : Transaction) :
    (∀ days : ℤ, t ∈ transactionCalculations.getFutureTransactions today transactions days ↔
      t ∈ transactions ∧ t.status = TransactionStatus.pendente ∧
      today ≤ t.scheduledDate.getD t.date ∧ t.scheduledDate.getD t.date ≤ today + days) ∧
    (t ∈ transactionCalculations.getOverdueTransactions today transactions ↔
      t ∈ transactions ∧ t.status = TransactionStatus.pendente ∧
      t.scheduledDate.getD t.date < today) ∧
    (t ∈ transactions → t.status = TransactionStatus.pendente →
      t.scheduledDate = some (today + 5) →
      t ∈ transactionCalculations.getFutureTransactions today transactions 30 ∧
      t ∉ transactionCalculations.getOverdueTransactions today transactions) ∧
    (t ∈ transactions → t.status = TransactionStatus.pendente →
      t.scheduledDate = some (today - 5) →
      t ∈ transactionCalculations.getOverdueTransactions today transactions ∧
      t ∉ transactionCalculations.getFutureTransactions today transactions 30) := by
  have hfut : ∀ days : ℤ,
      t ∈ transactionCalculations.getFutureTransactions today transactions days ↔
      t ∈ transactions ∧ t.status = TransactionStatus.pendente ∧
      today ≤ t.scheduledDate.getD t.date ∧ t.scheduledDate.getD t.date ≤ today + days := by
    intro days
    unfold transactionCalculations.getFutureTransactions
    simp [List.mem_filter, and_assoc]
  have hov : t ∈ transactionCalculations.getOverdueTransactions today transactions ↔
      t ∈ transactions ∧ t.status = TransactionStatus.pendente ∧
      t.scheduledDate.getD t.date < today := by
    unfold transactionCalculations.getOverdueTransactions
    simp [List.mem_filter, and_assoc]
  refine ⟨hfut, hov, ?_, ?_⟩
  · intro hmem hst hsch
    constructor
    · refine (hfut 30).mpr ⟨hmem, hst, ?_, ?_⟩ <;>
        · rw [hsch]
          simp only [Option.getD_some]
          omega
    · intro hc
      have h2 := (hov.mp hc).2.2
      rw [hsch] at h2
      simp only [Option.getD_some] at h2
      omega
  · intro hmem hst hsch
    constructor
    · refine hov.mpr ⟨hmem, hst, ?_⟩
      rw [hsch]
      simp only [Option.getD_some]
      omega
    · intro hc
      have h2 := ((hfut 30).mp hc).2.2
      rw [hsch] at h2
      simp only [Option.getD_some] at h2
      omega

/-- C5 witness at `today = 0` with the two concrete scheduled
transactions. -/
theorem future_overdue_membership_witness :
    (c5Fut ∈ transactionCalculations.getFutureTransactions 0 [c5Fut] 30 ∧
     c5Fut ∉ transactionCalculations.getOverdueTransactions 0 [c5Fut]) ∧
    (c5Past ∈ transactionCalculations.getOverdueTransactions 0 [c5Past] ∧
     c5Past ∉ transactionCalculations.getFutureTransactions 0 [c5Past] 30) := by
  constructor
  · exact (future_overdue_membership 0 [c5Fut] c5Fut).2.2.1
      (by simp) rfl (by norm_num [c5Fut])
  · exact (future_overdue_membership 0 [c5Past] c5Past).2.2.2
      (by simp) rfl (by norm_num [c5Past])

/-- The code's window start `new Date(year, month - 1, 1)` is the first
calendar day of the month. -/
lemma window_start_eq (year month : ℤ) (h1 : 1 ≤ month) (h2 : month ≤ 12) :
    jsDate year (month - 1) 1 = specWindowStart year month := by
  unfold jsDate monthStartDay specWindowStart
  have e1 : Int.ediv (month - 1) 12 = 0 :=
    Int.ediv_eq_zero_of_lt (by omega) (by omega)
  have e2 : Int.emod (month - 1) 12 = month - 1 :=
    Int.emod_eq_of_lt (by omega) (by omega)
  rw [e1, e2]
  simp

/-- The code's window end `new Date(year, month, 0)` is the day before the
first calendar day of the next month. -/
lemma window_end_eq (year month : ℤ) (h1 : 1 ≤ month) (h2 : month ≤ 12) :
    jsDate year month 0 = specWindowEnd year month := by
  unfold jsDate monthStartDay specWindowEnd specWindowStart
  by_cases h12 : month = 12
  · subst h12
    have e1 : Int.ediv (12:ℤ) 12 = 1 := by decide
    have e2 : Int.emod (12:ℤ) 12 = 0 := by decide
    rw [e1, e2, if_pos rfl]
    norm_num [daysBeforeMonth]
    ring
  · have e1 : Int.ediv month 12 = 0 :=
      Int.ediv_eq_zero_of_lt (by omega) (by omega)
    have e2 : Int.emod month 12 = month :=
      Int.emod_eq_of_lt (by omega) (by omega)
    have e3 : month + 1 - 1 = month := by ring
    rw [e1, e2, if_neg h12, e3]
    simp
    ring

/-- C4: `generateMonthlyReport` filters transactions to the window from the
first calendar day of the month through the day before the first of the
next month (inclusive bounds on `date`), computes income/expense/balance on
that window, builds the category mapping by unconditional per-transaction
summation of `amount` regardless of type or status, and maps each account
id to the account's current cached `balance` field. -/
theorem generateMonthlyReport_spec (transactions : List Transaction)
    (accounts : List Account) (month year : ℤ)
    (h1 : 1 ≤ month) (h2 : month ≤ 12) :
    (generateMonthlyReport transactions accounts month year).totalIncome =
      transactionCalculations.getTotalIncome
        (transactions.filter (specInWindow year month)) ∧
    (generateMonthlyReport transactions accounts month year).totalExpenses =
      transactionCalculations.getTotalExpenses
        (transactions.filter (specInWindow year month)) ∧
    (generateMonthlyReport transactions accounts month year).balance =
      transactionCalculations.getTotalIncome
        (transactions.filter (specInWindow year month)) -
      transactionCalculations.getTotalExpenses
        (transactions.filter (specInWindow year month)) ∧
    (∀ cid, (generateMonthlyReport transactions accounts month year).categoryBreakdown cid =
      specCategorySum (transactions.filter (specInWindow year month)) cid) ∧
    ((accounts.map (fun a => a.id)).Nodup → ∀ a ∈ accounts,
      (generateMonthlyReport transactions accounts month year).accountBalances a.id =
        some a.balance) := by
  have hwin : transactionCalculations.getTransactionsByPeriod transactions
      (jsDate year (month - 1) 1) (jsDate year month 0) =
      transactions.filter (specInWindow year month) := by
    unfold transactionCalculations.getTransactionsByPeriod specInWindow
    rw [window_start_eq year month h1 h2, window_end_eq year month h1 h2]
  refine ⟨?_, ?_, ?_, ?_, ?_⟩
  · show transactionCalculations.getTotalIncome
        (transactionCalculations.getTransactionsByPeriod transactions
          (jsDate year (month - 1) 1) (jsDate year month 0)) = _
    rw [hwin]
  · show transactionCalculations.getTotalExpenses
        (transactionCalculations.getTransactionsByPeriod transactions
          (jsDate year (month - 1) 1) (jsDate year month 0)) = _
    rw [hwin]
  · show transactionCalculations.getTotalIncome
        (transactionCalculations.getTransactionsByPeriod transactions
          (jsDate year (month - 1) 1) (jsDate year month 0)) -
      transactionCalculations.getTotalExpenses
        (transactionCalculations.getTransactionsByPeriod transactions
          (jsDate year (month - 1) 1) (jsDate year month 0)) = _
    rw [hwin]
  · intro cid
    show accum (fun t => t.categoryId) (fun t => t.amount)
        (transactionCalculations.getTransactionsByPeriod transactions
          (jsDate year (month - 1) 1) (jsDate year month 0)) (fun _ => none) cid = _
    rw [hwin, accum_apply]
    unfold specCategorySum
    simp
  · intro hnd a ha
    show accounts.foldl (fun mp a2 => setKey mp a2.id a2.balance) (fun _ => none) a.id =
      some a.balance
    exact foldl_setKey_apply accounts _ a ha hnd

/-- C4 witness at `month = 1`, `year = 2024` with one transaction and one
account. -/
theorem generateMonthlyReport_spec_witness :
    (1:ℤ) ≤ 1 ∧ (1:ℤ) ≤ 12 ∧
    (generateMonthlyReport [c4Tx] [c4Acc] 1 2024).accountBalances c4Acc.id =
      some c4Acc.balance ∧
    (generateMonthlyReport [c4Tx] [c4Acc] 1 2024).categoryBreakdown "cat1" =
      specCategorySum ([c4Tx].filter (specInWindow 2024 1)) "cat1" := by
  have h := generateMonthlyReport_spec [c4Tx] [c4Acc] 1 2024 (by norm_num) (by norm_num)
  refine ⟨by norm_num, by norm_num, ?_, h.2.2.2.1 "cat1"⟩
  exact h.2.2.2.2 (by simp) c4Acc (by simp)
